import Mathlib

/-!
Verification of the NexusCore plugin registry and loader
(`src/utils/pluginManager.js`) against its natural-language specification.

The JavaScript `PluginManager` class is shallowly embedded: its mutable
fields (`plugins`, `cache`, `stats`, `loaded`, and the persisted plugin
table accessed through the Sequelize `Plugin` model) become an explicit
`ManagerState` record, JavaScript `Map`s become association lists with
first-match lookup, and each async method becomes a pure state-passing
function.  Wall-clock values (`loadTime`, `loadedAt`, `lastUsed`,
`installedAt`, `lastUpdated`) and the Express `app` handle (route
attachment, `app.locals`) are external to every verified claim and are not
modelled.  Logging is modelled as an append-only list so that "logged"
clauses of the spec are checkable.
-/

namespace NexusCore

/-! ## Association-list model of a JavaScript `Map` (string keys)

JavaScript `Map` iteration follows insertion order; `set` on an existing
key keeps the entry position, `set` on a fresh key appends.  All reachable
states keep keys pairwise distinct, so replace-first semantics below
coincides with `Map.set`. -/

/-- First-match lookup, as `Map.prototype.get`. -/
def mapGet {α : Type} : List (String × α) → String → Option α
  | [], _ => none
  | e :: rest, k => if e.1 = k then some e.2 else mapGet rest k

/-- Key-presence test, as `Map.prototype.has`. -/
def mapHas {α : Type} (m : List (String × α)) (k : String) : Bool :=
  (mapGet m k).isSome

/-- Replace the first entry with the key, or append a new entry, as
`Map.prototype.set`. -/
def mapSet {α : Type} : List (String × α) → String → α → List (String × α)
  | [], k, v => [(k, v)]
  | e :: rest, k, v => if e.1 = k then (k, v) :: rest else e :: mapSet rest k v

/-- Remove every entry with the key, as `Map.prototype.delete` on a map
with pairwise-distinct keys. -/
def mapDelete {α : Type} : List (String × α) → String → List (String × α)
  | [], _ => []
  | e :: rest, k => if e.1 = k then mapDelete rest k else e :: mapDelete rest k

/-- Number of entries under a key (used to state uniqueness of registry
entries). -/
def countKey {α : Type} : List (String × α) → String → Nat
  | [], _ => 0
  | e :: rest, k => (if e.1 = k then 1 else 0) + countKey rest k

/-- Every key occurs at most once (the `Map` representation invariant). -/
def keysUnique {α : Type} (m : List (String × α)) : Prop :=
  ∀ k : String, countKey m k ≤ 1

/-! ## Descriptor candidates and the Validator

A raw `plugin.json` object.  The five required fields are modelled as
`Option String` (`none` = property absent); JavaScript truthiness on them
distinguishes absent/empty from any other string.  `active` is carried
because a raw descriptor object may or may not have that property, and
registry values obtained from the two sources differ exactly there. -/

structure Config where
  name : Option String
  version : Option String
  description : Option String
  route : Option String
  category : Option String
  active : Option Bool
deriving DecidableEq

/-- JavaScript truthiness of `config[field]` for a string-valued property:
`undefined` and `""` are falsy, every other string is truthy. -/
def truthy : Option String → Bool
  | none => false
  | some s => s ≠ ""

/-- Dynamic property access `config[field]` for the required field names. -/
def Config.fieldGet (c : Config) : String → Option String
  | "name" => c.name
  | "version" => c.version
  | "description" => c.description
  | "route" => c.route
  | "category" => c.category
  | _ => none

/-- The `required` array of `validatePluginConfig`. -/
def requiredFields : List String :=
  ["name", "version", "description", "route", "category"]

/-- The `missing` list of `validatePluginConfig`:
`required.filter(field => !config[field])`. -/
def missingFields (c : Config) : List String :=
  requiredFields.filter (fun f => ! truthy (c.fieldGet f))

/-- `config.route.startsWith('/')`. -/
def routeStartsWithSlash (s : String) : Bool :=
  match s.data with
  | c :: _ => c = '/'
  | [] => false

/-- A maximal run of decimal digits, nonempty (`\d+`). -/
def digitRun (l : List Char) : Bool :=
  l ≠ [] && l.all Char.isDigit

/-- Split a character list at every occurrence of the separator. -/
def splitOnChar (sep : Char) : List Char → List (List Char)
  | [] => [[]]
  | c :: cs =>
    if c = sep then [] :: splitOnChar sep cs
    else
      match splitOnChar sep cs with
      | [] => [[c]]
      | g :: gs => (c :: g) :: gs

/-- The version pattern of `validatePluginConfig`,
`^(\d+\.)?(\d+\.)?(\*|\d+)$`: up to two `\d+.` groups followed by `*` or
`\d+`.  Equivalently, splitting on `.` yields one to three components, the
leading ones nonempty digit runs and the last either `*` or a nonempty
digit run (each `\d+\.` group contains exactly the dot that separates
components, so the two readings coincide). -/
def versionOk (s : String) : Bool :=
  let tailOk : List Char → Bool := fun l => l = ['*'] || digitRun l
  match splitOnChar '.' s.data with
  | [t] => tailOk t
  | [a, t] => digitRun a && tailOk t
  | [a, b, t] => digitRun a && digitRun b && tailOk t
  | _ => false

/-- `validatePluginConfig(config)` of `src/utils/pluginManager.js`:
reject when a required field is falsy, when the route does not start with
`/`, or when a truthy version fails the version pattern; accept
otherwise.  (The guard `config.version && ...` is kept even though a falsy
version was already rejected by the missing-field check.) -/
def validatePluginConfig (c : Config) : Bool :=
  if missingFields c ≠ [] then false
  else if ! routeStartsWithSlash (c.route.getD ("")) then false
  else if truthy c.version && ! versionOk (c.version.getD ("")) then false
  else true

/-- Modelled from the spec: the route pattern `^/[a-z0-9-]+(/[a-z0-9-]+)*$`
that §4.1 of the spec attributes to the Validator (the pluginManager code
itself never applies this pattern; a matching regex appears only in the
Sequelize `Plugin` model's column validator).  A route matches when it is
a `/` followed by one or more `/`-separated nonempty segments over
`[a-z0-9-]`. -/
def routeMatchesSpecPattern (s : String) : Bool :=
  let segChar : Char → Bool := fun ch => ('a' ≤ ch && ch ≤ 'z') || ch.isDigit || ch = '-'
  let segOk : List Char → Bool := fun l => l ≠ [] && l.all segChar
  match s.data with
  | '/' :: rest => (splitOnChar '/' rest).all segOk
  | _ => false

/-! ## Registry values, persisted records and the manager state

`PluginData` is a registry (`this.plugins`) value, a projection of the
JavaScript object to the fields the verified claims depend on.  A value
coming from the filesystem is the parsed `plugin.json` object (possibly
mutated with `controller` / `hasView`); a value coming from the database
is `dbPlugin.toJSON()`, which always carries the model's `active` column
(the real `toJSON()` also carries further columns with defaults — `id`,
`rating`, ... — which would only add further differences between the two
shapes). -/

structure PluginData where
  name : String
  version : String
  description : String
  route : String
  category : String
  /-- `none` when the JavaScript object has no `active` property. -/
  active : Option Bool
  /-- whether a `controller` property was attached (folder had `controller.js`). -/
  hasController : Bool
  /-- whether `hasView` was set (folder had `view.ejs`). -/
  hasView : Bool
deriving DecidableEq

/-- A row of the persisted `plugins` table (the Sequelize `Plugin` model),
projected to the columns the claims depend on.  The model's column-level
validations and unique constraints are not modelled; every concrete input
used below satisfies them. -/
structure DbRecord where
  name : String
  version : String
  description : String
  route : String
  category : String
  active : Bool
deriving DecidableEq

/-- The identity key `name@version`. -/
def DbRecord.key (r : DbRecord) : String := r.name ++ "@" ++ r.version

/-- `dbPlugin.toJSON()` as a registry value: all modelled columns are
present, in particular `active`. -/
def DbRecord.toJSON (r : DbRecord) : PluginData :=
  { name := r.name, version := r.version, description := r.description,
    route := r.route, category := r.category, active := some r.active,
    hasController := false, hasView := false }

/-- The registry value produced by `loadPluginFromFolder` for a validated
config: the config object itself, with `controller` / `hasView` attached
according to the folder's optional files. -/
def fsPluginData (c : Config) (hasController hasView : Bool) : PluginData :=
  { name := c.name.getD (""), version := c.version.getD (""),
    description := c.description.getD (""), route := c.route.getD (""),
    category := c.category.getD (""), active := c.active,
    hasController := hasController, hasView := hasView }

/-- The identity key of a (validated) config. -/
def Config.key (c : Config) : String := c.name.getD ("") ++ "@" ++ c.version.getD ("")

/-- A `PluginCacheEntry`'s counters (`loadedAt` / `lastUsed` timestamps are
wall-clock and not modelled). -/
structure CacheEntry where
  requests : Nat
  errors : Nat
deriving DecidableEq

/-- `this.stats` (without the wall-clock `loadTime`). -/
structure Stats where
  total : Nat
  active : Nat
  errors : Nat
deriving DecidableEq

inductive LogLevel where
  | debug
  | info
  | warn
  | error
deriving DecidableEq

/-- The mutable state of the `PluginManager` singleton together with the
persisted plugin table it reads and writes. -/
structure ManagerState where
  plugins : List (String × PluginData)
  cache : List (String × CacheEntry)
  db : List DbRecord
  stats : Stats
  loaded : Bool
  log : List (LogLevel × String)
deriving DecidableEq

def addLog (s : ManagerState) (lv : LogLevel) (msg : String) : ManagerState :=
  { s with log := s.log ++ [(lv, msg)] }

/-! ## Persisted-source pass (`loadFromDatabase`) -/

/-- Sort order of `Plugin.findAll({order: [[category, ASC], [name, ASC]]})`. -/
def dbRecLE (a b : DbRecord) : Bool :=
  decide (a.category < b.category) ||
    (a.category = b.category && decide (a.name ≤ b.name))

def insertSorted (r : DbRecord) : List DbRecord → List DbRecord
  | [] => [r]
  | x :: xs => if dbRecLE r x then r :: x :: xs else x :: insertSorted r xs

def sortRecords : List DbRecord → List DbRecord
  | [] => []
  | x :: xs => insertSorted x (sortRecords xs)

/-- `Plugin.findAll({where: {active: true}, order: ...})`. -/
def dbFindAllActive (db : List DbRecord) : List DbRecord :=
  sortRecords (db.filter (fun r => r.active))

/-- Body of the `loadFromDatabase` loop for one fetched record: insert
under its identity key unless the key is already present.
(`registerPlugin` only attaches routes to the external web layer and is
not part of the state.) -/
def dbStep (s : ManagerState) (r : DbRecord) : ManagerState :=
  if mapHas s.plugins r.key then s
  else
    { s with plugins := mapSet s.plugins r.key r.toJSON,
             log := s.log ++ [(LogLevel.debug, "Database plugin: " ++ r.name)] }

/-- `loadFromDatabase(app)`: iterate the active records in store order.
(The surrounding `try` only matters for database outages, which are not
modelled.) -/
def loadFromDatabase (s : ManagerState) : ManagerState :=
  (dbFindAllActive s.db).foldl dbStep s

/-! ## Filesystem pass (`loadFromFilesystem` / `loadPluginFromFolder`) -/

/-- What the loader finds when it processes one directory entry of the
plugins root.
  * `statError`: `fs.stat` throws; the exception escapes the per-folder
    level and is caught by `loadFromFilesystem`'s own catch.
  * `notDir`: the entry is not a directory.
  * `noConfig`: no `plugin.json` file.
  * `loadFailure`: an exception inside `loadPluginFromFolder`'s `try`
    (unreadable `plugin.json`, `JSON.parse` failure, or a throwing
    dynamic module load of `routes.js` / `controller.js`).
  * `withConfig c hasController hasView`: `plugin.json` parses to `c`; the
    flags record the presence of `controller.js` / `view.ejs`.
A declared-but-unresolvable dependency only produces a warning inside
`checkDependencies` and never changes the outcome, so dependencies are not
modelled. -/
inductive FolderContent where
  | statError
  | notDir
  | noConfig
  | loadFailure
  | withConfig (c : Config) (hasController hasView : Bool)
deriving DecidableEq

structure FolderEntry where
  fname : String
  content : FolderContent
deriving DecidableEq

/-- The reserved-name filter of the `loadFromFilesystem` loop. -/
def skipName (folder : String) : Bool :=
  match folder.data with
  | '_' :: _ => true
  | '.' :: _ => true
  | _ => folder = "node_modules"

/-- The arrow predicate `r => r.name === n` used on persisted rows. -/
def recNameIs (n : String) (r : DbRecord) : Bool := r.name = n

/-- The arrow predicate `p => p.name === n` used on registry values. -/
def pdNameIs (n : String) (p : PluginData) : Bool := p.name = n

/-- Merging a validated config into a found persisted row, as
`saveToDatabase`'s `plugin.update({...config})`: the config's fields
overwrite; a config without an `active` property leaves the flag as it
was. -/
def applyConfig (c : Config) (r : DbRecord) : DbRecord :=
  { name := c.name.getD (""), version := c.version.getD (""),
    description := c.description.getD (""), route := c.route.getD (""),
    category := c.category.getD (""), active := c.active.getD r.active }

def updateFirstByName (c : Config) : List DbRecord → List DbRecord
  | [] => []
  | r :: rest =>
    if r.name = c.name.getD ("") then applyConfig c r :: rest
    else r :: updateFirstByName c rest

/-- `saveToDatabase(config)`: `findOrCreate` by `name`; on create the
defaults spread the config and then force `active: true`; on find, only
the single found instance (the first row with the name) is updated. -/
def saveToDatabase (db : List DbRecord) (c : Config) : List DbRecord :=
  match db.find? (recNameIs (c.name.getD (""))) with
  | none =>
    db ++ [{ name := c.name.getD (""), version := c.version.getD (""),
             description := c.description.getD (""), route := c.route.getD (""),
             category := c.category.getD (""), active := true }]
  | some _ => updateFirstByName c db

/-- The `stats.errors++` plus error log of `loadPluginFromFolder`'s catch. -/
def folderErr (s : ManagerState) (folder : String) : ManagerState :=
  { s with stats := { s.stats with errors := s.stats.errors + 1 },
           log := s.log ++ [(LogLevel.error, "Failed to load plugin " ++ folder)] }

/-- `loadPluginFromFolder(app, folder, path)` (the caller has already
established the entry is a non-reserved directory whose stat succeeded). -/
def loadPluginFromFolder (s : ManagerState) (f : FolderEntry) : ManagerState :=
  match f.content with
  | FolderContent.noConfig =>
    addLog s LogLevel.warn ("Skipping " ++ f.fname ++ ": No plugin.json found")
  | FolderContent.loadFailure => folderErr s f.fname
  | FolderContent.withConfig c hasController hasView =>
    if ! validatePluginConfig c then
      addLog s LogLevel.warn ("Skipping " ++ f.fname ++ ": Invalid plugin configuration")
    else if mapHas s.plugins c.key then
      addLog s LogLevel.debug ("Skipping " ++ c.name.getD ("") ++ ": Already loaded")
    else
      let data := fsPluginData c hasController hasView
      let s1 := { s with cache := mapSet s.cache c.key { requests := 0, errors := 0 } }
      let s2 := { s1 with db := saveToDatabase s1.db c }
      { s2 with plugins := mapSet s2.plugins c.key data,
                log := s2.log ++ [(LogLevel.info, "Plugin loaded: " ++ data.name)] }
  | _ => s

/-- The `loadFromFilesystem` loop over the directory listing.  A thrown
`fs.stat` is caught by the pass-level catch, so it stops the remaining
entries from being processed (only `loadPluginFromFolder` has a
per-directory catch). -/
def fsWalk (s : ManagerState) : List FolderEntry → ManagerState
  | [] => s
  | f :: rest =>
    if skipName f.fname then fsWalk s rest
    else
      match f.content with
      | FolderContent.statError =>
        addLog s LogLevel.error ("Filesystem plugin loading error")
      | FolderContent.notDir => fsWalk s rest
      | _ => fsWalk (loadPluginFromFolder s f) rest

def loadFromFilesystem (s : ManagerState) (folders : List FolderEntry) : ManagerState :=
  fsWalk s folders

/-! ## `loadAllPlugins` -/

/-- Whether a registry value counts as active
(`filter(p => p.active)` under JavaScript truthiness). -/
def dataActive (p : PluginData) : Bool := p.active = some true

/-- `loadAllPlugins(app)` with the filesystem contents passed explicitly:
clear `plugins` and `cache`, run the database pass, run the filesystem
pass, then refresh `total` / `active` and set `loaded`.  `stats.errors` is
never reset.  The `plugins:loaded` event's payload is `this.stats`, i.e.
the `stats` field of the returned state.  (Nothing inside the top-level
`try` can throw in this model, so the outer catch is dead.) -/
def loadAllPlugins (s : ManagerState) (folders : List FolderEntry) : ManagerState :=
  let s0 := { s with plugins := [], cache := [],
                     log := s.log ++ [(LogLevel.info, "Loading plugins...")] }
  let s1 := loadFromDatabase s0
  let s2 := loadFromFilesystem s1 folders
  { s2 with
      stats := { s2.stats with
                   total := s2.plugins.length,
                   active := (s2.plugins.filter (fun e => dataActive e.2)).length },
      loaded := true }

/-! ## Lifecycle operations (`installPlugin`, `uninstallPlugin`, `updatePlugin`) -/

/-- The structured result these operations return:
`{success, error?, message}` projected to success flag and error message. -/
structure OpOutcome where
  success : Bool
  errMsg : Option String
deriving DecidableEq

/-- The conflict predicate of `installPlugin`:
`p => p.name === pluginData.name || p.route === pluginData.route`. -/
def conflictsWith (d : Config) (p : PluginData) : Bool :=
  p.name = d.name.getD ("") || p.route = d.route.getD ("")

/-- `installPlugin(pluginFile, pluginData)`.  Validation failure and a
name-or-route conflict with any registry value throw and are returned as
structured failures; otherwise the descriptor is persisted
(`Plugin.create` with `active: true`).  The on-disk plugin folder and the
uploaded archive are filesystem side effects outside the model; the
in-memory registry is never touched by this method. -/
def installPlugin (s : ManagerState) (d : Config) : ManagerState × OpOutcome :=
  if ! validatePluginConfig d then
    (addLog s LogLevel.error ("Plugin installation failed"),
     { success := false, errMsg := some ("Invalid plugin configuration") })
  else
    match (s.plugins.map Prod.snd).find? (conflictsWith d) with
    | some p =>
      (addLog s LogLevel.error ("Plugin installation failed"),
       { success := false,
         errMsg := some ("Plugin conflict: " ++ p.name ++ " already exists") })
    | none =>
      let newRec : DbRecord :=
        { name := d.name.getD (""), version := d.version.getD (""),
          description := d.description.getD (""), route := d.route.getD (""),
          category := d.category.getD (""), active := true }
      (addLog { s with db := s.db ++ [newRec] } LogLevel.info
         ("Plugin installed: " ++ newRec.name),
       { success := true, errMsg := none })

/-- `uninstallPlugin(pluginName)`: find by `name` among registry values;
absent → throw, caught, structured failure, nothing mutated.  Present →
set `active=false` on every persisted row with that name, then delete
`name@version` from `plugins` and `cache`. -/
def uninstallPlugin (s : ManagerState) (pluginName : String) : ManagerState × OpOutcome :=
  match (s.plugins.map Prod.snd).find? (pdNameIs pluginName) with
  | none =>
    (addLog s LogLevel.error ("Plugin uninstallation failed"),
     { success := false, errMsg := some ("Plugin " ++ pluginName ++ " not found") })
  | some p =>
    let key := p.name ++ "@" ++ p.version
    let db2 := s.db.map (fun r => if r.name = pluginName then { r with active := false } else r)
    (addLog { s with db := db2,
                     plugins := mapDelete s.plugins key,
                     cache := mapDelete s.cache key }
       LogLevel.info ("Plugin uninstalled: " ++ pluginName),
     { success := true, errMsg := none })

/-- A partial descriptor passed to `updatePlugin`: `none` = field not in
the patch. -/
structure Patch where
  name : Option String
  version : Option String
  description : Option String
  route : Option String
  category : Option String
  active : Option Bool
deriving DecidableEq

/-- Merging a patch into a persisted row (`Plugin.update` semantics;
`lastUpdated` is wall-clock and not modelled). -/
def applyPatch (p : Patch) (r : DbRecord) : DbRecord :=
  { name := p.name.getD r.name, version := p.version.getD r.version,
    description := p.description.getD r.description, route := p.route.getD r.route,
    category := p.category.getD r.category, active := p.active.getD r.active }

/-- `updatePlugin(pluginName, updateData)`: update every persisted row
whose `name` matches; zero rows → throw, caught, structured failure.
Otherwise re-fetch the first row with that name and `set` it into the
registry under its (possibly new) `name@version` key — the entry under the
old key is never deleted.  When the patch renames the plugin the re-fetch
by the old name finds nothing and `plugin.name` throws, caught as a
structured failure (with the rows already updated). -/
def updatePlugin (s : ManagerState) (pluginName : String) (patch : Patch) :
    ManagerState × OpOutcome :=
  let matched := (s.db.filter (recNameIs pluginName)).length
  let db2 := s.db.map (fun r => if recNameIs pluginName r then applyPatch patch r else r)
  if matched = 0 then
    (addLog s LogLevel.error ("Plugin update failed"),
     { success := false, errMsg := some ("Plugin " ++ pluginName ++ " not found") })
  else
    match db2.find? (recNameIs pluginName) with
    | none =>
      (addLog { s with db := db2 } LogLevel.error ("Plugin update failed"),
       { success := false, errMsg := some ("Cannot read properties of null") })
    | some r =>
      let key := r.name ++ "@" ++ r.version
      (addLog { s with db := db2, plugins := mapSet s.plugins key r.toJSON }
         LogLevel.info ("Plugin updated: " ++ pluginName),
       { success := true, errMsg := none })

/-! ## Health monitor (`checkPluginHealth`) -/

structure HealthDetail where
  plugin : String
  status : String
  message : Option String
deriving DecidableEq

structure HealthReport where
  total : Nat
  healthy : Nat
  warnings : Nat
  errors : Nat
  details : List HealthDetail
deriving DecidableEq

/-- One iteration of the `checkPluginHealth` loop: a plugin whose cache
entry has strictly more than 10 errors is reported `error`, every other
plugin (including one without a cache entry) `healthy`.  Nothing in the
loop body can throw in this model, so the inner catch is dead. -/
def healthStep (cache : List (String × CacheEntry)) (rep : HealthReport)
    (e : String × PluginData) : HealthReport :=
  let isErr : Bool :=
    match mapGet cache e.1 with
    | some ce => decide (ce.errors > 10)
    | none => false
  if isErr then
    { rep with errors := rep.errors + 1,
               details := rep.details ++
                 [{ plugin := e.2.name, status := "error", message := some ("Too many errors") }] }
  else
    { rep with healthy := rep.healthy + 1,
               details := rep.details ++
                 [{ plugin := e.2.name, status := "healthy", message := none }] }

/-- `checkPluginHealth()` (its `timestamp` field is wall-clock and not
modelled). -/
def checkPluginHealth (s : ManagerState) : HealthReport :=
  s.plugins.foldl (healthStep s.cache)
    { total := s.plugins.length, healthy := 0, warnings := 0, errors := 0, details := [] }

/-! ## Concrete inputs

Small closed values used to evaluate the model (all satisfy the Sequelize
column validations, which are outside the model). -/

def emptyStats : Stats := { total := 0, active := 0, errors := 0 }

def emptyState : ManagerState :=
  { plugins := [], cache := [], db := [], stats := emptyStats,
    loaded := false, log := [] }

/-- A candidate whose route starts with `/` but violates the spec's
kebab-case pattern (uppercase letter and a space after the leading
slash). -/
def cfgUpperRoute : Config :=
  { name := some ("Admin"), version := some ("1.0.0"),
    description := some ("An administration panel"),
    route := some ("/Admin Panel"), category := some ("tools"), active := none }

/-- A candidate whose route does not start with `/`. -/
def cfgNoSlash : Config :=
  { name := some ("Admin"), version := some ("1.0.0"),
    description := some ("An administration panel"),
    route := some ("admin"), category := some ("tools"), active := none }

/-- A fully valid filesystem candidate. -/
def cfgAlpha : Config :=
  { name := some ("Alpha"), version := some ("1.0.0"),
    description := some ("Alpha test plugin"),
    route := some ("/alpha"), category := some ("tools"), active := none }

/-- A second valid filesystem candidate. -/
def cfgBeta : Config :=
  { name := some ("Beta"), version := some ("1.0.0"),
    description := some ("Beta test plugin"),
    route := some ("/beta"), category := some ("tools"), active := none }

/-- A candidate missing `name` (absent) and `category` (empty). -/
def cfgMissingTwo : Config :=
  { name := none, version := some ("1.0.0"),
    description := some ("No name here"),
    route := some ("/noname"), category := some (""), active := none }

/-- A candidate missing only `category`. -/
def cfgNoCategory : Config :=
  { name := some ("Gamma"), version := some ("1.0.0"),
    description := some ("Gamma test plugin"),
    route := some ("/gamma"), category := none, active := none }

/-- A persisted active record. -/
def recGamma : DbRecord :=
  { name := "Gamma", version := "1.0.0", description := "Gamma from the database",
    route := "/gamma", category := "tools", active := true }

/-- A filesystem candidate with `recGamma`'s identity key but a different
description. -/
def cfgGammaFs : Config :=
  { name := some ("Gamma"), version := some ("1.0.0"),
    description := some ("Gamma from the filesystem"),
    route := some ("/gamma"), category := some ("tools"), active := none }

def folderAlpha : FolderEntry := { fname := "alpha", content := FolderContent.withConfig cfgAlpha false false }
def folderBeta : FolderEntry := { fname := "beta", content := FolderContent.withConfig cfgBeta false false }
def folderGamma : FolderEntry := { fname := "gamma", content := FolderContent.withConfig cfgGammaFs false false }
def folderNoCategory : FolderEntry := { fname := "gamma", content := FolderContent.withConfig cfgNoCategory false false }
def folderBoom : FolderEntry := { fname := "boom", content := FolderContent.loadFailure }

/-- An active registry value occupying route `/alpha`. -/
def pdAlpha : PluginData :=
  { name := "Alpha", version := "1.0.0", description := "Alpha test plugin",
    route := "/alpha", category := "tools", active := some true,
    hasController := false, hasView := false }

/-- A valid descriptor named `Delta` that reuses route `/alpha`. -/
def cfgDelta : Config :=
  { name := some ("Delta"), version := some ("1.0.0"),
    description := some ("Delta wants the alpha route"),
    route := some ("/alpha"), category := some ("tools"), active := none }

/-- Alpha's persisted row. -/
def recAlpha : DbRecord :=
  { name := "Alpha", version := "1.0.0", description := "Alpha test plugin",
    route := "/alpha", category := "tools", active := true }

/-- A state holding Alpha in the registry, cache and store. -/
def stateAlpha : ManagerState :=
  { plugins := [("Alpha@1.0.0", pdAlpha)],
    cache := [("Alpha@1.0.0", { requests := 0, errors := 0 })],
    db := [recAlpha], stats := emptyStats, loaded := true, log := [] }

/-- A patch that only bumps the version to `2.0.0`. -/
def patchV2 : Patch :=
  { name := none, version := some ("2.0.0"), description := none,
    route := none, category := none, active := none }

/-- Registry value for a second plugin used by the health-check witness. -/
def pdBeta : PluginData :=
  { name := "Beta", version := "1.0.0", description := "Beta test plugin",
    route := "/beta", category := "tools", active := some true,
    hasController := false, hasView := false }

/-- Two plugins whose cache entries carry 11 and 5 accumulated errors. -/
def stateHealth : ManagerState :=
  { plugins := [("Alpha@1.0.0", pdAlpha), ("Beta@1.0.0", pdBeta)],
    cache := [("Alpha@1.0.0", { requests := 7, errors := 11 }),
              ("Beta@1.0.0", { requests := 9, errors := 5 })],
    db := [recAlpha], stats := emptyStats, loaded := true, log := [] }

/-- A state that has already accumulated three load errors. -/
def stateErr3 : ManagerState :=
  { plugins := [], cache := [], db := [recGamma],
    stats := { total := 0, active := 0, errors := 3 }, loaded := true, log := [] }

/-! ## Derived views of the operations (used to state and prove the claims) -/

/-- The registry effect of one `loadFromDatabase` iteration, isolated from
the rest of the state. -/
def dbInsert (m : List (String × PluginData)) (r : DbRecord) : List (String × PluginData) :=
  if mapHas m r.key then m else mapSet m r.key r.toJSON

/-- The registry produced by the database pass alone, as a function of the
persisted table. -/
def dbPassPlugins (db : List DbRecord) : List (String × PluginData) :=
  (dbFindAllActive db).foldl dbInsert []

/-- The health detail row `checkPluginHealth` emits for one registry
entry. -/
def healthDetailOf (cache : List (String × CacheEntry)) (e : String × PluginData) :
    HealthDetail :=
  match mapGet cache e.1 with
  | some ce =>
    if ce.errors > 10 then
      { plugin := e.2.name, status := "error", message := some ("Too many errors") }
    else { plugin := e.2.name, status := "healthy", message := none }
  | none => { plugin := e.2.name, status := "healthy", message := none }

/-- The steady-state precondition under which a load pass does not touch
the persisted store: every valid filesystem candidate already has an
active persisted record with its name and version (so the database pass
claims its identity key first and the filesystem pass skips it). -/
def steadyState (db : List DbRecord) (folders : List FolderEntry) : Prop :=
  ∀ f ∈ folders, skipName f.fname = false →
    ∀ c hc hv, f.content = FolderContent.withConfig c hc hv →
      validatePluginConfig c = true →
        ∃ r ∈ db, r.active = true ∧ r.name = c.name.getD ("") ∧
          r.version = c.version.getD ("")

/-! ## Lemmas about the map primitives -/

theorem mapGet_mapSet_self {α : Type} (m : List (String × α)) (k : String) (v : α) :
    mapGet (mapSet m k v) k = some v := by
  induction m with
  | nil => simp [mapSet, mapGet]
  | cons e rest ih =>
    by_cases h : e.1 = k
    · simp [mapSet, h, mapGet]
    · simp [mapSet, h, mapGet, ih]

theorem mapGet_mapSet_ne {α : Type} (m : List (String × α)) (k k' : String) (v : α)
    (h : k' ≠ k) : mapGet (mapSet m k v) k' = mapGet m k' := by
  induction m with
  | nil => simp [mapSet, mapGet, Ne.symm h]
  | cons e rest ih =>
    by_cases he : e.1 = k
    · subst he
      simp [mapSet, mapGet, Ne.symm h, h]
    · by_cases he' : e.1 = k'
      · simp [mapSet, he, mapGet, he', h]
      · simp [mapSet, he, mapGet, he', ih]

theorem mapGet_mem {α : Type} {m : List (String × α)} {k : String} {v : α}
    (h : mapGet m k = some v) : (k, v) ∈ m := by
  induction m with
  | nil => simp [mapGet] at h
  | cons e rest ih =>
    by_cases he : e.1 = k
    · obtain ⟨a, b⟩ := e
      simp only at he
      subst he
      simp [mapGet] at h
      subst h
      exact List.mem_cons_self _ _
    · simp [mapGet, he] at h
      exact List.mem_cons_of_mem _ (ih h)

theorem mapHas_false_iff {α : Type} (m : List (String × α)) (k : String) :
    mapHas m k = false ↔ mapGet m k = none := by
  unfold mapHas
  cases mapGet m k <;> simp

theorem mapHas_true_iff {α : Type} (m : List (String × α)) (k : String) :
    mapHas m k = true ↔ ∃ v, mapGet m k = some v := by
  unfold mapHas
  cases mapGet m k <;> simp

theorem countKey_mapSet_self {α : Type} (m : List (String × α)) (k : String) (v : α) :
    countKey (mapSet m k v) k = max (countKey m k) 1 := by
  induction m with
  | nil => simp [mapSet, countKey]
  | cons e rest ih =>
    by_cases he : e.1 = k
    · subst he
      simp [mapSet, countKey]
    · simp only [mapSet, if_neg he, countKey, if_neg he, ih]
      omega

theorem countKey_mapSet_ne {α : Type} (m : List (String × α)) (k k' : String) (v : α)
    (h : k' ≠ k) : countKey (mapSet m k v) k' = countKey m k' := by
  induction m with
  | nil => simp [mapSet, countKey, Ne.symm h]
  | cons e rest ih =>
    by_cases he : e.1 = k
    · subst he
      simp [mapSet, countKey, Ne.symm h]
    · simp only [mapSet, if_neg he, countKey, ih]

theorem countKey_pos_of_mapGet {α : Type} {m : List (String × α)} {k : String} {v : α}
    (h : mapGet m k = some v) : 1 ≤ countKey m k := by
  induction m with
  | nil => simp [mapGet] at h
  | cons e rest ih =>
    by_cases he : e.1 = k
    · simp only [countKey, if_pos he]
      omega
    · simp [mapGet, he] at h
      have h1 := ih h
      simp only [countKey, if_neg he]
      omega

theorem keysUnique_nil {α : Type} : keysUnique ([] : List (String × α)) := by
  intro k
  simp [countKey]

theorem keysUnique_mapSet {α : Type} {m : List (String × α)} (h : keysUnique m)
    (k : String) (v : α) : keysUnique (mapSet m k v) := by
  intro k'
  by_cases hk : k' = k
  · subst hk
    rw [countKey_mapSet_self]
    have h1 := h k'
    omega
  · rw [countKey_mapSet_ne _ _ _ _ hk]
    exact h k'

theorem countKey_eq_one {α : Type} {m : List (String × α)} {k : String} {v : α}
    (hu : keysUnique m) (h : mapGet m k = some v) : countKey m k = 1 :=
  Nat.le_antisymm (hu k) (countKey_pos_of_mapGet h)

/-! ## C1 — route pattern and the Validator -/

/-- C1 counterexample: the claim "every descriptor whose route does not
match `^/[a-z0-9-]+(/[a-z0-9-]+)*$` is rejected by `validatePluginConfig`"
is false.  `cfgUpperRoute`'s route `/Admin Panel` (uppercase letters and a
space after the leading slash) fails the spec's pattern, yet
`validatePluginConfig` accepts the descriptor: the code only checks
`route.startsWith('/')`. -/
theorem c1_route_pattern_counterexample :
    routeMatchesSpecPattern (cfgUpperRoute.route.getD ("")) = false ∧
      validatePluginConfig cfgUpperRoute = true := by
  decide

/-- C1 (amended): `validatePluginConfig` rejects every descriptor
candidate whose route does not start with `/` (and, per the
counterexample, this is the only shape constraint it places on the
route — the full kebab-case pattern of the spec is not enforced here). -/
theorem c1_route_must_start_with_slash (c : Config)
    (h : routeStartsWithSlash (c.route.getD ("")) = false) :
    validatePluginConfig c = false := by
  unfold validatePluginConfig
  simp [h]

/-- C1 witness: the amended theorem applied to a concrete candidate whose
route `admin` lacks the leading slash. -/
theorem c1_route_must_start_with_slash_witness :
    routeStartsWithSlash (cfgNoSlash.route.getD ("")) = false ∧
      validatePluginConfig cfgNoSlash = false :=
  ⟨by decide, c1_route_must_start_with_slash cfgNoSlash (by decide)⟩

/-! ## C6 — all missing required fields are reported -/

/-- C6: for every descriptor candidate and every required field that is
missing (absent or empty) on it, `validatePluginConfig` fails and the
`missing` list it computes contains that field — hence it contains every
missing required field, not only the first one found. -/
theorem c6_missing_fields_all_reported (c : Config) (f : String)
    (hf : f ∈ requiredFields) (hmiss : truthy (c.fieldGet f) = false) :
    f ∈ missingFields c ∧ validatePluginConfig c = false := by
  have hmem : f ∈ missingFields c := by
    unfold missingFields
    exact List.mem_filter.mpr ⟨hf, by simp [hmiss]⟩
  refine ⟨hmem, ?_⟩
  have hne : missingFields c ≠ [] := by
    intro h0
    rw [h0] at hmem
    simp at hmem
  unfold validatePluginConfig
  simp [hne]

/-- C6 witness: on a candidate missing both `name` (absent) and `category`
(empty), the theorem applies to `category` — the later of the two — and
the computed list indeed holds both fields. -/
theorem c6_missing_fields_all_reported_witness :
    ("category" ∈ requiredFields ∧ truthy (cfgMissingTwo.fieldGet ("category")) = false) ∧
      ("category" ∈ missingFields cfgMissingTwo ∧
        validatePluginConfig cfgMissingTwo = false) ∧
      missingFields cfgMissingTwo = ["name", "category"] :=
  ⟨⟨by decide, by decide⟩,
   c6_missing_fields_all_reported cfgMissingTwo ("category") (by decide) (by decide),
   by decide⟩

/-! ## C3 — install conflict on a shared route -/

/-- C3: for every valid descriptor whose route equals the route of an
existing active registry value with a different name, `installPlugin`
returns a structured failure whose message names a conflicting registry
plugin (the first entry matching on name or route), and the in-memory
registry — plugins map and cache map — and the persisted store are left
unchanged by the call. -/
theorem c3_install_route_conflict (s : ManagerState) (d : Config) (q : PluginData)
    (hval : validatePluginConfig d = true)
    (hq : q ∈ s.plugins.map Prod.snd)
    (hqa : q.active = some true)
    (hqr : q.route = d.route.getD (""))
    (hqn : q.name ≠ d.name.getD ("")) :
    ∃ p ∈ s.plugins.map Prod.snd,
      (p.name = d.name.getD ("") ∨ p.route = d.route.getD ("")) ∧
      (installPlugin s d).2 =
        { success := false,
          errMsg := some ("Plugin conflict: " ++ p.name ++ " already exists") } ∧
      (installPlugin s d).1.plugins = s.plugins ∧
      (installPlugin s d).1.cache = s.cache ∧
      (installPlugin s d).1.db = s.db := by
  have hpred : conflictsWith d q = true := by
    simp [conflictsWith, hqr]
  have hsome : ((s.plugins.map Prod.snd).find? (conflictsWith d)).isSome :=
    List.find?_isSome.mpr ⟨q, hq, hpred⟩
  obtain ⟨p, hp⟩ := Option.isSome_iff_exists.mp hsome
  have hmem := List.mem_of_find?_eq_some hp
  have hpp : conflictsWith d p = true := List.find?_some hp
  refine ⟨p, hmem, ?_, ?_, ?_, ?_, ?_⟩
  · simpa [conflictsWith] using hpp
  · simp [installPlugin, hval, hp]
  · simp [installPlugin, hval, hp, addLog]
  · simp [installPlugin, hval, hp, addLog]
  · simp [installPlugin, hval, hp, addLog]

/-- C3 witness: installing `Delta` with route `/alpha` against a state
whose registry holds the active plugin `Alpha` at `/alpha`. -/
theorem c3_install_route_conflict_witness :
    (validatePluginConfig cfgDelta = true ∧
      pdAlpha ∈ stateAlpha.plugins.map Prod.snd ∧
      pdAlpha.active = some true ∧
      pdAlpha.route = cfgDelta.route.getD ("") ∧
      pdAlpha.name ≠ cfgDelta.name.getD ("")) ∧
    ∃ p ∈ stateAlpha.plugins.map Prod.snd,
      (p.name = cfgDelta.name.getD ("") ∨ p.route = cfgDelta.route.getD ("")) ∧
      (installPlugin stateAlpha cfgDelta).2 =
        { success := false,
          errMsg := some ("Plugin conflict: " ++ p.name ++ " already exists") } ∧
      (installPlugin stateAlpha cfgDelta).1.plugins = stateAlpha.plugins ∧
      (installPlugin stateAlpha cfgDelta).1.cache = stateAlpha.cache ∧
      (installPlugin stateAlpha cfgDelta).1.db = stateAlpha.db :=
  ⟨⟨by decide, by decide, by decide, by decide, by decide⟩,
   c3_install_route_conflict stateAlpha cfgDelta pdAlpha
     (by decide) (by decide) (by decide) (by decide) (by decide)⟩

/-! ## C7 — uninstalling an unknown name -/

/-- C7: for every name matching no registry value, `uninstallPlugin`
returns a structured failure saying the plugin was not found, and the
plugins map, the cache map and the persisted store are all unchanged by
the call. -/
theorem c7_uninstall_unknown_name (s : ManagerState) (pluginName : String)
    (h : ∀ p ∈ s.plugins.map Prod.snd, p.name ≠ pluginName) :
    (uninstallPlugin s pluginName).2 =
      { success := false,
        errMsg := some ("Plugin " ++ pluginName ++ " not found") } ∧
    (uninstallPlugin s pluginName).1.plugins = s.plugins ∧
    (uninstallPlugin s pluginName).1.cache = s.cache ∧
    (uninstallPlugin s pluginName).1.db = s.db := by
  have hnone : (s.plugins.map Prod.snd).find? (pdNameIs pluginName) = none := by
    rw [List.find?_eq_none]
    intro p hp
    simp [pdNameIs]
    exact h p hp
  refine ⟨?_, ?_, ?_, ?_⟩ <;> simp [uninstallPlugin, hnone, addLog]

/-- C7 witness: uninstalling `Zeta` from a state whose only registry value
is named `Alpha`. -/
theorem c7_uninstall_unknown_name_witness :
    (∀ p ∈ stateAlpha.plugins.map Prod.snd, p.name ≠ "Zeta") ∧
    ((uninstallPlugin stateAlpha ("Zeta")).2 =
      { success := false, errMsg := some ("Plugin " ++ "Zeta" ++ " not found") } ∧
     (uninstallPlugin stateAlpha ("Zeta")).1.plugins = stateAlpha.plugins ∧
     (uninstallPlugin stateAlpha ("Zeta")).1.cache = stateAlpha.cache ∧
     (uninstallPlugin stateAlpha ("Zeta")).1.db = stateAlpha.db) :=
  ⟨by decide, c7_uninstall_unknown_name stateAlpha ("Zeta") (by decide)⟩

/-! ## C9 — health thresholds -/

theorem healthStep_details (cache : List (String × CacheEntry)) (rep : HealthReport)
    (e : String × PluginData) :
    (healthStep cache rep e).details = rep.details ++ [healthDetailOf cache e] := by
  unfold healthStep healthDetailOf
  cases h : mapGet cache e.1 with
  | none => simp
  | some ce =>
    by_cases hh : ce.errors > 10 <;> simp [hh]

theorem health_details_mono (cache : List (String × CacheEntry))
    (l : List (String × PluginData)) (rep : HealthReport) (d : HealthDetail)
    (hd : d ∈ rep.details) : d ∈ (l.foldl (healthStep cache) rep).details := by
  induction l generalizing rep with
  | nil => simpa using hd
  | cons e rest ih =>
    apply ih
    rw [healthStep_details]
    exact List.mem_append_left _ hd

theorem health_detail_mem (cache : List (String × CacheEntry))
    (l : List (String × PluginData)) (rep : HealthReport) (e : String × PluginData)
    (he : e ∈ l) :
    healthDetailOf cache e ∈ (l.foldl (healthStep cache) rep).details := by
  induction l generalizing rep with
  | nil => simp at he
  | cons x rest ih =>
    rcases List.mem_cons.mp he with h | h
    · subst h
      rw [List.foldl_cons]
      apply health_details_mono
      rw [healthStep_details]
      exact List.mem_append_right _ (by simp)
    · rw [List.foldl_cons]
      exact ih _ h

/-- C9: a registry entry whose cache entry carries 11 accumulated errors
is reported with status `error` ("Too many errors") by
`checkPluginHealth`, and one whose cache entry carries 5 errors is
reported `healthy` — the threshold is strictly more than 10. -/
theorem c9_health_threshold (s : ManagerState) (k : String) (p : PluginData)
    (ce : CacheEntry) (hp : mapGet s.plugins k = some p)
    (hc : mapGet s.cache k = some ce) :
    (ce.errors = 11 →
      ({ plugin := p.name, status := "error", message := some ("Too many errors") } :
        HealthDetail) ∈ (checkPluginHealth s).details) ∧
    (ce.errors = 5 →
      ({ plugin := p.name, status := "healthy", message := none } :
        HealthDetail) ∈ (checkPluginHealth s).details) := by
  have hmem : (k, p) ∈ s.plugins := mapGet_mem hp
  constructor
  · intro h11
    have hdet : healthDetailOf s.cache (k, p) =
        { plugin := p.name, status := "error", message := some ("Too many errors") } := by
      simp [healthDetailOf, hc, h11]
    rw [← hdet]
    exact health_detail_mem _ _ _ _ hmem
  · intro h5
    have hdet : healthDetailOf s.cache (k, p) =
        { plugin := p.name, status := "healthy", message := none } := by
      simp [healthDetailOf, hc, h5]
    rw [← hdet]
    exact health_detail_mem _ _ _ _ hmem

/-- C9 witness: in `stateHealth`, Alpha's cache entry has 11 errors and is
reported `error`; Beta's has 5 and is reported `healthy`. -/
theorem c9_health_threshold_witness :
    (mapGet stateHealth.plugins ("Alpha@1.0.0") = some pdAlpha ∧
     mapGet stateHealth.cache ("Alpha@1.0.0") = some { requests := 7, errors := 11 } ∧
     mapGet stateHealth.plugins ("Beta@1.0.0") = some pdBeta ∧
     mapGet stateHealth.cache ("Beta@1.0.0") = some { requests := 9, errors := 5 }) ∧
    ({ plugin := pdAlpha.name, status := "error", message := some ("Too many errors") } :
       HealthDetail) ∈ (checkPluginHealth stateHealth).details ∧
    ({ plugin := pdBeta.name, status := "healthy", message := none } :
       HealthDetail) ∈ (checkPluginHealth stateHealth).details :=
  ⟨⟨by decide, by decide, by decide, by decide⟩,
   (c9_health_threshold stateHealth ("Alpha@1.0.0") pdAlpha
      { requests := 7, errors := 11 } (by decide) (by decide)).1 rfl,
   (c9_health_threshold stateHealth ("Beta@1.0.0") pdBeta
      { requests := 9, errors := 5 } (by decide) (by decide)).2 rfl⟩

/-! ## C10 — the errors counter is cumulative across passes -/

theorem dbStep_stats (s : ManagerState) (r : DbRecord) : (dbStep s r).stats = s.stats := by
  unfold dbStep
  split <;> rfl

theorem dbFold_stats (l : List DbRecord) (s : ManagerState) :
    (l.foldl dbStep s).stats = s.stats := by
  induction l generalizing s with
  | nil => rfl
  | cons r rest ih =>
    rw [List.foldl_cons, ih, dbStep_stats]

theorem loadFromDatabase_stats (s : ManagerState) : (loadFromDatabase s).stats = s.stats :=
  dbFold_stats _ _

theorem loadPluginFromFolder_stats (s : ManagerState) (f : FolderEntry)
    (h : f.content ≠ FolderContent.loadFailure) :
    (loadPluginFromFolder s f).stats = s.stats := by
  obtain ⟨fn, fc⟩ := f
  cases fc with
  | statError => rfl
  | notDir => rfl
  | noConfig => rfl
  | loadFailure => simp at h
  | withConfig c hcon hv =>
    show (loadPluginFromFolder s ⟨fn, FolderContent.withConfig c hcon hv⟩).stats = s.stats
    simp only [loadPluginFromFolder]
    split
    · rfl
    · split <;> rfl

theorem fsWalk_errors (l : List FolderEntry) (s : ManagerState)
    (h : ∀ f ∈ l, skipName f.fname = false →
      f.content ≠ FolderContent.loadFailure ∧ f.content ≠ FolderContent.statError) :
    (fsWalk s l).stats.errors = s.stats.errors := by
  induction l generalizing s with
  | nil => rfl
  | cons f rest ih =>
    have htail : ∀ g ∈ rest, skipName g.fname = false →
        g.content ≠ FolderContent.loadFailure ∧ g.content ≠ FolderContent.statError :=
      fun g hg => h g (List.mem_cons_of_mem f hg)
    by_cases hskip : skipName f.fname
    · obtain ⟨fn, fc⟩ := f
      simp only [fsWalk, hskip, if_pos]
      exact ih _ htail
    · have hf := h f (List.mem_cons_self f rest) (by simpa using hskip)
      obtain ⟨fn, fc⟩ := f
      cases fc with
      | statError => exact absurd rfl hf.2
      | notDir =>
        simp only [fsWalk]
        rw [if_neg hskip]
        exact ih _ htail
      | noConfig =>
        simp [fsWalk, hskip]
        rw [ih _ htail]
        rfl
      | loadFailure => exact absurd rfl hf.1
      | withConfig c hcon hv =>
        simp [fsWalk, hskip]
        rw [ih _ htail]
        rw [loadPluginFromFolder_stats _ _ (by simp)]

/-- C10: `loadAllPlugins` clears the plugins and cache maps but never
resets `stats.errors`; on a pass in which no per-plugin failure occurs
(and none of the failures that a `statError` aborts with), the `errors`
field of the emitted `plugins:loaded` report — the `stats` of the
resulting state — equals the error count accumulated before the call. -/
theorem c10_errors_cumulative (s : ManagerState) (folders : List FolderEntry)
    (h : ∀ f ∈ folders, skipName f.fname = false →
      f.content ≠ FolderContent.loadFailure ∧ f.content ≠ FolderContent.statError) :
    (loadAllPlugins s folders).stats.errors = s.stats.errors := by
  unfold loadAllPlugins loadFromFilesystem
  simp only
  rw [fsWalk_errors _ _ h, loadFromDatabase_stats]

/-- C10 witness: a clean pass over one valid folder, starting from a state
with three accumulated errors, reports three errors — the cumulative
count, not zero. -/
theorem c10_errors_cumulative_witness :
    (∀ f ∈ [folderAlpha], skipName f.fname = false →
      f.content ≠ FolderContent.loadFailure ∧ f.content ≠ FolderContent.statError) ∧
    (loadAllPlugins stateErr3 [folderAlpha]).stats.errors = stateErr3.stats.errors ∧
    stateErr3.stats.errors = 3 :=
  ⟨by decide, c10_errors_cumulative stateErr3 [folderAlpha] (by decide), by decide⟩

/-! ## C5 — per-directory failure policy -/

theorem fsWalk_append (l1 l2 : List FolderEntry) (s : ManagerState)
    (h : ∀ g ∈ l1, skipName g.fname = false → g.content ≠ FolderContent.statError) :
    fsWalk s (l1 ++ l2) = fsWalk (fsWalk s l1) l2 := by
  induction l1 generalizing s with
  | nil => rfl
  | cons f rest ih =>
    have htail : ∀ g ∈ rest, skipName g.fname = false →
        g.content ≠ FolderContent.statError :=
      fun g hg => h g (List.mem_cons_of_mem f hg)
    by_cases hskip : skipName f.fname
    · obtain ⟨fn, fc⟩ := f
      simp only [List.cons_append, fsWalk, hskip, if_pos]
      exact ih _ htail
    · have hf := h f (List.mem_cons_self f rest) (by simpa using hskip)
      obtain ⟨fn, fc⟩ := f
      cases fc with
      | statError => exact absurd rfl hf
      | notDir =>
        simp [fsWalk, hskip]
        exact ih _ htail
      | noConfig =>
        simp [fsWalk, hskip]
        exact ih _ htail
      | loadFailure =>
        simp [fsWalk, hskip]
        exact ih _ htail
      | withConfig c hcon hv =>
        simp [fsWalk, hskip]
        exact ih _ htail

/-- C5 counterexample: the claim "a validation failure while processing a
directory is caught, logged and counted" is false on the counting part.
Walking `[folderNoCategory, folderBeta]` — the first directory's
descriptor fails validation — leaves `stats.errors` at `0` (validation
failures are only logged as warnings and skipped; nothing is counted),
while the pass does continue and loads `Beta` from the next directory. -/
theorem c5_validation_failure_not_counted :
    (loadFromFilesystem emptyState [folderNoCategory, folderBeta]).stats.errors = 0 ∧
    mapHas (loadFromFilesystem emptyState [folderNoCategory, folderBeta]).plugins
      ("Beta@1.0.0") = true ∧
    (LogLevel.warn, "Skipping gamma: Invalid plugin configuration") ∈
      (loadFromFilesystem emptyState [folderNoCategory, folderBeta]).log := by
  decide

/-- C5 (amended): failures while processing one directory never abort the
rest of the filesystem pass, but only some of them are counted.  With no
`statError` among the earlier entries: (1) a `loadFailure` (I/O or parse
error inside `loadPluginFromFolder`) is caught, increments the error
counter, logs an error, leaves the registry untouched, and the walk
continues with the remaining directories; (2) a directory whose descriptor
fails validation is logged as a warning and skipped — errors counter and
registry unchanged — and the walk continues; (3) an I/O error from
`fs.stat` on the directory entry itself escapes to the pass-level catch:
it is logged but not counted, and the remaining directories are NOT
processed. -/
theorem c5_per_directory_failure_policy (s : ManagerState) (l1 l2 : List FolderEntry)
    (f : FolderEntry) (hskip : skipName f.fname = false)
    (h1 : ∀ g ∈ l1, skipName g.fname = false → g.content ≠ FolderContent.statError) :
    (f.content = FolderContent.loadFailure →
      fsWalk s (l1 ++ f :: l2) = fsWalk (folderErr (fsWalk s l1) f.fname) l2 ∧
      (folderErr (fsWalk s l1) f.fname).stats.errors = (fsWalk s l1).stats.errors + 1 ∧
      (folderErr (fsWalk s l1) f.fname).plugins = (fsWalk s l1).plugins) ∧
    (∀ c hc hv, f.content = FolderContent.withConfig c hc hv →
      validatePluginConfig c = false →
      fsWalk s (l1 ++ f :: l2) =
        fsWalk (addLog (fsWalk s l1) LogLevel.warn
          ("Skipping " ++ f.fname ++ ": Invalid plugin configuration")) l2 ∧
      (addLog (fsWalk s l1) LogLevel.warn
          ("Skipping " ++ f.fname ++ ": Invalid plugin configuration")).stats.errors =
        (fsWalk s l1).stats.errors ∧
      (addLog (fsWalk s l1) LogLevel.warn
          ("Skipping " ++ f.fname ++ ": Invalid plugin configuration")).plugins =
        (fsWalk s l1).plugins) ∧
    (f.content = FolderContent.statError →
      fsWalk s (l1 ++ f :: l2) =
        addLog (fsWalk s l1) LogLevel.error ("Filesystem plugin loading error")) := by
  rw [fsWalk_append l1 (f :: l2) s h1]
  obtain ⟨fn, fc⟩ := f
  simp only at hskip
  refine ⟨?_, ?_, ?_⟩
  · intro heq
    simp only at heq
    subst heq
    refine ⟨?_, rfl, rfl⟩
    simp [fsWalk, hskip, loadPluginFromFolder]
  · intro c hc hv heq hinv
    simp only at heq
    subst heq
    refine ⟨?_, rfl, rfl⟩
    simp [fsWalk, hskip, loadPluginFromFolder, hinv]
  · intro heq
    simp only at heq
    subst heq
    simp [fsWalk, hskip]

/-- C5 witness: a `loadFailure` directory `boom` sitting between the valid
directories `alpha` and `beta` is counted and isolated: the walk equals
the error-accounted continuation over the remaining directory. -/
theorem c5_per_directory_failure_policy_witness :
    (skipName folderBoom.fname = false ∧
     (∀ g ∈ [folderAlpha], skipName g.fname = false →
        g.content ≠ FolderContent.statError) ∧
     folderBoom.content = FolderContent.loadFailure) ∧
    (fsWalk emptyState ([folderAlpha] ++ folderBoom :: [folderBeta]) =
       fsWalk (folderErr (fsWalk emptyState [folderAlpha]) folderBoom.fname) [folderBeta] ∧
     (folderErr (fsWalk emptyState [folderAlpha]) folderBoom.fname).stats.errors =
       (fsWalk emptyState [folderAlpha]).stats.errors + 1 ∧
     (folderErr (fsWalk emptyState [folderAlpha]) folderBoom.fname).plugins =
       (fsWalk emptyState [folderAlpha]).plugins) :=
  ⟨⟨by decide, by decide, by decide⟩,
   (c5_per_directory_failure_policy emptyState [folderAlpha] [folderBeta] folderBoom
      (by decide) (by decide)).1 rfl⟩

/-! ## C8 — update and the registry key -/

theorem find_map_applyPatch (patch : Patch) (pluginName : String) (hn : patch.name = none)
    (l : List DbRecord) :
    (l.map (fun r => if recNameIs pluginName r then applyPatch patch r else r)).find?
        (recNameIs pluginName) =
      (l.find? (recNameIs pluginName)).map (applyPatch patch) := by
  induction l with
  | nil => rfl
  | cons r rest ih =>
    by_cases hr : recNameIs pluginName r = true
    · have hrn : r.name = pluginName := by simpa [recNameIs] using hr
      have hp : recNameIs pluginName (applyPatch patch r) = true := by
        simp [recNameIs, applyPatch, hn, hrn]
      rw [List.map_cons, if_pos hr, List.find?_cons_of_pos _ hp,
        List.find?_cons_of_pos _ hr]
      rfl
    · have hr' : ¬ recNameIs pluginName r = true := hr
      rw [List.map_cons, if_neg hr, List.find?_cons_of_neg _ hr',
        List.find?_cons_of_neg _ hr', ih]

/-- C8 counterexample: the claim "a successful `updatePlugin` leaves no
stale entry under the old `name@version` key" is false.  Updating `Alpha`
(registered as `Alpha@1.0.0`) with a patch bumping the version to `2.0.0`
succeeds, yet the old entry `Alpha@1.0.0` is still in the registry while a
new entry was added under `Alpha@2.0.0`. -/
theorem c8_stale_entry_counterexample :
    (updatePlugin stateAlpha ("Alpha") patchV2).2.success = true ∧
    mapGet (updatePlugin stateAlpha ("Alpha") patchV2).1.plugins ("Alpha@1.0.0") =
      some pdAlpha ∧
    mapHas (updatePlugin stateAlpha ("Alpha") patchV2).1.plugins ("Alpha@2.0.0") = true := by
  decide

/-- C8 (amended): a successful `updatePlugin(name, patch)` (target row
present, patch not renaming) sets the registry entry under the **updated**
record's `name@version` key to the updated persisted record and leaves
every other key — including, when the patch changes the version, the now
stale old `name@version` key — exactly as it was; no key is removed, and
the cache map is untouched. -/
theorem c8_update_refreshes_new_key (s : ManagerState) (pluginName : String)
    (patch : Patch) (r0 : DbRecord)
    (hfind : s.db.find? (recNameIs pluginName) = some r0)
    (hn : patch.name = none) :
    (updatePlugin s pluginName patch).2.success = true ∧
    (updatePlugin s pluginName patch).1.plugins =
      mapSet s.plugins
        ((applyPatch patch r0).name ++ "@" ++ (applyPatch patch r0).version)
        (applyPatch patch r0).toJSON ∧
    (updatePlugin s pluginName patch).1.cache = s.cache ∧
    (∀ k, k ≠ (applyPatch patch r0).name ++ "@" ++ (applyPatch patch r0).version →
      mapGet (updatePlugin s pluginName patch).1.plugins k = mapGet s.plugins k) := by
  have hmem := List.mem_of_find?_eq_some hfind
  have hpred : recNameIs pluginName r0 = true := List.find?_some hfind
  have hmatched : (s.db.filter (recNameIs pluginName)).length ≠ 0 := by
    have hin : r0 ∈ s.db.filter (recNameIs pluginName) :=
      List.mem_filter.mpr ⟨hmem, hpred⟩
    have hne := List.ne_nil_of_mem hin
    simpa [List.length_eq_zero] using hne
  have hfind2 :
      (s.db.map (fun r => if recNameIs pluginName r then applyPatch patch r else r)).find?
          (recNameIs pluginName) = some (applyPatch patch r0) := by
    rw [find_map_applyPatch patch pluginName hn, hfind]
    rfl
  refine ⟨?_, ?_, ?_, ?_⟩
  · simp [updatePlugin, hmatched, hfind2]
  · simp [updatePlugin, hmatched, hfind2, addLog]
  · simp [updatePlugin, hmatched, hfind2, addLog]
  · intro k hk
    simp [updatePlugin, hmatched, hfind2, addLog]
    exact mapGet_mapSet_ne _ _ _ _ hk

/-- C8 witness: the amended theorem applied to the version-bump patch on
`stateAlpha`: the update succeeds and the registry equals the old registry
with the entry set under the new key `Alpha@2.0.0`. -/
theorem c8_update_refreshes_new_key_witness :
    (stateAlpha.db.find? (recNameIs ("Alpha")) = some recAlpha ∧
     patchV2.name = none) ∧
    ((updatePlugin stateAlpha ("Alpha") patchV2).2.success = true ∧
     (updatePlugin stateAlpha ("Alpha") patchV2).1.plugins =
       mapSet stateAlpha.plugins
         ((applyPatch patchV2 recAlpha).name ++ "@" ++ (applyPatch patchV2 recAlpha).version)
         (applyPatch patchV2 recAlpha).toJSON ∧
     (updatePlugin stateAlpha ("Alpha") patchV2).1.cache = stateAlpha.cache ∧
     (∀ k, k ≠ (applyPatch patchV2 recAlpha).name ++ "@" ++
          (applyPatch patchV2 recAlpha).version →
        mapGet (updatePlugin stateAlpha ("Alpha") patchV2).1.plugins k =
          mapGet stateAlpha.plugins k)) :=
  ⟨⟨by decide, rfl⟩,
   c8_update_refreshes_new_key stateAlpha ("Alpha") patchV2 recAlpha (by decide) rfl⟩

/-! ## C2 — persisted source wins over the filesystem source -/

theorem insertSorted_mem (r x : DbRecord) (l : List DbRecord) :
    x ∈ insertSorted r l ↔ x = r ∨ x ∈ l := by
  induction l with
  | nil => simp [insertSorted]
  | cons y rest ih =>
    unfold insertSorted
    by_cases h : dbRecLE r y
    · simp only [h, if_pos, List.mem_cons]
    · simp only [h, Bool.false_eq_true, if_false, List.mem_cons, ih]
      tauto

theorem sortRecords_mem (x : DbRecord) : ∀ l : List DbRecord,
    x ∈ sortRecords l ↔ x ∈ l := by
  intro l
  induction l with
  | nil => simp [sortRecords]
  | cons y rest ih => simp [sortRecords, insertSorted_mem, ih]

theorem dbStep_plugins (s : ManagerState) (r : DbRecord) :
    (dbStep s r).plugins = dbInsert s.plugins r := by
  by_cases h : mapHas s.plugins r.key = true <;> simp [dbStep, dbInsert, h]

theorem dbFold_plugins : ∀ (l : List DbRecord) (s : ManagerState),
    (l.foldl dbStep s).plugins = l.foldl dbInsert s.plugins := by
  intro l
  induction l with
  | nil => intro s; rfl
  | cons r rest ih =>
    intro s
    rw [List.foldl_cons, List.foldl_cons, ih, dbStep_plugins]

theorem dbInsert_get_preserve {m : List (String × PluginData)} {K : String}
    {v : PluginData} (h : mapGet m K = some v) (r : DbRecord) :
    mapGet (dbInsert m r) K = some v := by
  by_cases hhas : mapHas m r.key = true
  · simpa [dbInsert, hhas] using h
  · have hfalse : mapHas m r.key = false := by simpa using hhas
    by_cases hk : r.key = K
    · rw [hk, mapHas_false_iff] at hfalse
      rw [hfalse] at h
      exact absurd h (by simp)
    · simp only [dbInsert, hfalse, Bool.false_eq_true, if_false]
      rw [mapGet_mapSet_ne _ _ _ _ (fun hh => hk hh.symm)]
      exact h

theorem dbInsertFold_preserve (K : String) (v : PluginData) :
    ∀ (l : List DbRecord) (m : List (String × PluginData)),
      mapGet m K = some v → mapGet (l.foldl dbInsert m) K = some v := by
  intro l
  induction l with
  | nil => intro m h; simpa using h
  | cons x rest ih =>
    intro m h
    rw [List.foldl_cons]
    exact ih _ (dbInsert_get_preserve h x)

theorem dbInsertFold_first (K : String) (r : DbRecord) (hkey : DbRecord.key r = K) :
    ∀ (l : List DbRecord) (m : List (String × PluginData)),
      mapGet m K = none → r ∈ l → (∀ x ∈ l, DbRecord.key x = K → x = r) →
      mapGet (l.foldl dbInsert m) K = some r.toJSON := by
  intro l
  induction l with
  | nil =>
    intro m hm hr hall
    simp at hr
  | cons x rest ih =>
    intro m hm hr hall
    rw [List.foldl_cons]
    by_cases hx : DbRecord.key x = K
    · have hxr : x = r := hall x (List.mem_cons_self _ _) hx
      subst hxr
      have hfalse : mapHas m x.key = false := by
        rw [hx, mapHas_false_iff]
        exact hm
      have hget : mapGet (dbInsert m x) K = some x.toJSON := by
        simp only [dbInsert, hfalse, Bool.false_eq_true, if_false]
        rw [← hx]
        exact mapGet_mapSet_self _ _ _
      exact dbInsertFold_preserve K x.toJSON rest _ hget
    · have hrrest : r ∈ rest := by
        rcases List.mem_cons.mp hr with h | h
        · rw [h] at hkey
          exact absurd hkey hx
        · exact h
      have hm' : mapGet (dbInsert m x) K = none := by
        by_cases hhas : mapHas m x.key = true
        · simpa [dbInsert, hhas] using hm
        · have hf : mapHas m x.key = false := by simpa using hhas
          simp only [dbInsert, hf, Bool.false_eq_true, if_false]
          rw [mapGet_mapSet_ne _ _ _ _ (fun hh => hx hh.symm)]
          exact hm
      exact ih _ hm' hrrest (fun y hy hyk => hall y (List.mem_cons_of_mem _ hy) hyk)

theorem loadPluginFromFolder_get_preserve (s : ManagerState) (f : FolderEntry)
    (K : String) (v : PluginData) (h : mapGet s.plugins K = some v) :
    mapGet (loadPluginFromFolder s f).plugins K = some v := by
  obtain ⟨fn, fc⟩ := f
  cases fc with
  | statError => exact h
  | notDir => exact h
  | noConfig => exact h
  | loadFailure => exact h
  | withConfig c hcon hv =>
    show mapGet
      (loadPluginFromFolder s ⟨fn, FolderContent.withConfig c hcon hv⟩).plugins K = some v
    simp only [loadPluginFromFolder]
    split
    · exact h
    · split
      · exact h
      · rename_i hnothas
        show mapGet (mapSet s.plugins c.key (fsPluginData c hcon hv)) K = some v
        by_cases hk : c.key = K
        · rw [hk] at hnothas
          exact absurd ((mapHas_true_iff _ _).mpr ⟨v, h⟩) hnothas
        · rw [mapGet_mapSet_ne _ _ _ _ (fun hh => hk hh.symm)]
          exact h

theorem fsWalk_get_preserve (K : String) (v : PluginData) :
    ∀ (l : List FolderEntry) (s : ManagerState),
      mapGet s.plugins K = some v → mapGet (fsWalk s l).plugins K = some v := by
  intro l
  induction l with
  | nil => intro s h; exact h
  | cons f rest ih =>
    intro s h
    by_cases hskip : skipName f.fname
    · obtain ⟨fn, fc⟩ := f
      simp only [fsWalk, hskip, if_pos]
      exact ih _ h
    · obtain ⟨fn, fc⟩ := f
      cases fc with
      | statError =>
        simp [fsWalk, hskip]
        exact h
      | notDir =>
        simp [fsWalk, hskip]
        exact ih _ h
      | noConfig =>
        simp [fsWalk, hskip]
        exact ih _ (loadPluginFromFolder_get_preserve _ _ _ _ h)
      | loadFailure =>
        simp [fsWalk, hskip]
        exact ih _ (loadPluginFromFolder_get_preserve _ _ _ _ h)
      | withConfig c hcon hv =>
        simp [fsWalk, hskip]
        exact ih _ (loadPluginFromFolder_get_preserve _ _ _ _ h)

theorem keysUnique_dbInsert {m : List (String × PluginData)} (h : keysUnique m)
    (r : DbRecord) : keysUnique (dbInsert m r) := by
  unfold dbInsert
  split
  · exact h
  · exact keysUnique_mapSet h _ _

theorem keysUnique_dbInsertFold : ∀ (l : List DbRecord)
    (m : List (String × PluginData)), keysUnique m → keysUnique (l.foldl dbInsert m) := by
  intro l
  induction l with
  | nil => intro m h; exact h
  | cons x rest ih =>
    intro m h
    rw [List.foldl_cons]
    exact ih _ (keysUnique_dbInsert h x)

theorem keysUnique_loadPluginFromFolder (s : ManagerState) (f : FolderEntry)
    (h : keysUnique s.plugins) : keysUnique (loadPluginFromFolder s f).plugins := by
  obtain ⟨fn, fc⟩ := f
  cases fc with
  | statError => exact h
  | notDir => exact h
  | noConfig => exact h
  | loadFailure => exact h
  | withConfig c hcon hv =>
    show keysUnique
      (loadPluginFromFolder s ⟨fn, FolderContent.withConfig c hcon hv⟩).plugins
    simp only [loadPluginFromFolder]
    split
    · exact h
    · split
      · exact h
      · exact keysUnique_mapSet h _ _

theorem keysUnique_fsWalk : ∀ (l : List FolderEntry) (s : ManagerState),
    keysUnique s.plugins → keysUnique (fsWalk s l).plugins := by
  intro l
  induction l with
  | nil => intro s h; exact h
  | cons f rest ih =>
    intro s h
    by_cases hskip : skipName f.fname
    · obtain ⟨fn, fc⟩ := f
      simp only [fsWalk, hskip, if_pos]
      exact ih _ h
    · obtain ⟨fn, fc⟩ := f
      cases fc with
      | statError =>
        simp [fsWalk, hskip]
        exact h
      | notDir =>
        simp [fsWalk, hskip]
        exact ih _ h
      | noConfig =>
        simp [fsWalk, hskip]
        exact ih _ (keysUnique_loadPluginFromFolder _ _ h)
      | loadFailure =>
        simp [fsWalk, hskip]
        exact ih _ (keysUnique_loadPluginFromFolder _ _ h)
      | withConfig c hcon hv =>
        simp [fsWalk, hskip]
        exact ih _ (keysUnique_loadPluginFromFolder _ _ h)

/-- C2: for every identity key backed by exactly one active persisted
record, a full `loadAllPlugins` pass leaves exactly one registry entry
under that key, and its value is the one built from the persisted record
(`toJSON`) — in particular, when a filesystem candidate carries the same
`name@version`, it is skipped, because the database pass runs first and a
later discovery of an existing key is a no-op (the conclusion holds for
every folder list). -/
theorem c2_persisted_source_wins (s : ManagerState) (folders : List FolderEntry)
    (r : DbRecord) (K : String)
    (hmem : r ∈ s.db) (hact : r.active = true) (hkey : DbRecord.key r = K)
    (huniq : ∀ x ∈ s.db, x.active = true → DbRecord.key x = K → x = r) :
    mapGet (loadAllPlugins s folders).plugins K = some r.toJSON ∧
    countKey (loadAllPlugins s folders).plugins K = 1 := by
  have hLsub : ∀ x ∈ dbFindAllActive s.db, x ∈ s.db ∧ x.active = true := by
    intro x hx
    unfold dbFindAllActive at hx
    rw [sortRecords_mem] at hx
    have hx2 := List.mem_filter.mp hx
    exact ⟨hx2.1, by simpa using hx2.2⟩
  have hrL : r ∈ dbFindAllActive s.db := by
    unfold dbFindAllActive
    rw [sortRecords_mem]
    exact List.mem_filter.mpr ⟨hmem, by simp [hact]⟩
  have hallL : ∀ x ∈ dbFindAllActive s.db, DbRecord.key x = K → x = r := by
    intro x hx hxk
    have hx2 := hLsub x hx
    exact huniq x hx2.1 hx2.2 hxk
  have hplug : (loadAllPlugins s folders).plugins =
      (fsWalk (loadFromDatabase
        { s with plugins := [], cache := [],
                 log := s.log ++ [(LogLevel.info, "Loading plugins...")] }) folders).plugins :=
    rfl
  have hdbget : mapGet (loadFromDatabase
      { s with plugins := [], cache := [],
               log := s.log ++ [(LogLevel.info, "Loading plugins...")] }).plugins K =
      some r.toJSON := by
    unfold loadFromDatabase
    rw [dbFold_plugins]
    exact dbInsertFold_first K r hkey _ _ rfl hrL hallL
  have hget : mapGet (loadAllPlugins s folders).plugins K = some r.toJSON := by
    rw [hplug]
    exact fsWalk_get_preserve K r.toJSON folders _ hdbget
  refine ⟨hget, ?_⟩
  have huniq2 : keysUnique (loadAllPlugins s folders).plugins := by
    rw [hplug]
    apply keysUnique_fsWalk
    unfold loadFromDatabase
    rw [dbFold_plugins]
    exact keysUnique_dbInsertFold _ _ keysUnique_nil
  exact countKey_eq_one huniq2 hget

/-- C2 witness: the key `Gamma@1.0.0` exists both as the active persisted
record `recGamma` and as a filesystem candidate with a different
description; after the pass the single registry entry under the key is the
persisted one. -/
theorem c2_persisted_source_wins_witness :
    (recGamma ∈ ({ emptyState with db := [recGamma] } : ManagerState).db ∧
     recGamma.active = true ∧
     DbRecord.key recGamma = "Gamma@1.0.0" ∧
     (∀ x ∈ ({ emptyState with db := [recGamma] } : ManagerState).db,
        x.active = true → DbRecord.key x = "Gamma@1.0.0" → x = recGamma)) ∧
    (mapGet (loadAllPlugins { emptyState with db := [recGamma] } [folderGamma]).plugins
        ("Gamma@1.0.0") = some recGamma.toJSON ∧
     countKey (loadAllPlugins { emptyState with db := [recGamma] } [folderGamma]).plugins
        ("Gamma@1.0.0") = 1) :=
  ⟨⟨by decide, by decide, by decide, by decide⟩,
   c2_persisted_source_wins { emptyState with db := [recGamma] } [folderGamma] recGamma
     ("Gamma@1.0.0") (by decide) (by decide) (by decide) (by decide)⟩

/-! ## C4 — idempotence of `loadAllPlugins` -/

/-- C4 counterexample: the claim "two successive `loadAllPlugins` calls
with no external filesystem/storage changes in between yield identical
registry contents" is false.  Starting from an empty store with the single
filesystem candidate `alpha`, the first call registers the raw descriptor
(no `active` property) and persists it with `active: true`; the second
call then finds the persisted record first and registers its `toJSON`
image instead, so the value under `Alpha@1.0.0` differs between the two
calls. -/
theorem c4_not_idempotent_counterexample :
    mapGet (loadAllPlugins (loadAllPlugins emptyState [folderAlpha])
        [folderAlpha]).plugins ("Alpha@1.0.0") ≠
      mapGet (loadAllPlugins emptyState [folderAlpha]).plugins ("Alpha@1.0.0") ∧
    mapGet (loadAllPlugins emptyState [folderAlpha]).plugins ("Alpha@1.0.0") =
      some (fsPluginData cfgAlpha false false) ∧
    mapGet (loadAllPlugins (loadAllPlugins emptyState [folderAlpha])
        [folderAlpha]).plugins ("Alpha@1.0.0") =
      some ({ name := "Alpha", version := "1.0.0", description := "Alpha test plugin",
              route := "/alpha", category := "tools",
              active := true } : DbRecord).toJSON := by
  refine ⟨by decide, by decide, by decide⟩

theorem dbStep_db (s : ManagerState) (r : DbRecord) : (dbStep s r).db = s.db := by
  unfold dbStep
  split <;> rfl

theorem dbFold_db (l : List DbRecord) (s : ManagerState) :
    (l.foldl dbStep s).db = s.db := by
  induction l generalizing s with
  | nil => rfl
  | cons r rest ih =>
    rw [List.foldl_cons, ih, dbStep_db]

theorem dbInsertFold_has_mono (K : String) :
    ∀ (l : List DbRecord) (m : List (String × PluginData)),
      mapHas m K = true → mapHas (l.foldl dbInsert m) K = true := by
  intro l m h
  obtain ⟨v, hv⟩ := (mapHas_true_iff _ _).mp h
  exact (mapHas_true_iff _ _).mpr ⟨v, dbInsertFold_preserve K v l m hv⟩

theorem dbInsert_has_self (m : List (String × PluginData)) (r : DbRecord) :
    mapHas (dbInsert m r) r.key = true := by
  by_cases h : mapHas m r.key = true
  · simpa [dbInsert, h] using h
  · have hf : mapHas m r.key = false := by simpa using h
    simp only [dbInsert, hf, Bool.false_eq_true, if_false]
    exact (mapHas_true_iff _ _).mpr ⟨r.toJSON, mapGet_mapSet_self _ _ _⟩

theorem dbInsertFold_has_self (r : DbRecord) :
    ∀ (l : List DbRecord) (m : List (String × PluginData)),
      r ∈ l → mapHas (l.foldl dbInsert m) r.key = true := by
  intro l
  induction l with
  | nil =>
    intro m hr
    simp at hr
  | cons x rest ih =>
    intro m hr
    rw [List.foldl_cons]
    rcases List.mem_cons.mp hr with h | h
    · subst h
      exact dbInsertFold_has_mono _ _ _ (dbInsert_has_self m r)
    · exact ih _ h

/-- Under the per-folder guard "every valid candidate's key is already
registered", the filesystem walk only logs: the registry and the persisted
store are left untouched. -/
theorem fsWalk_frozen :
    ∀ (l : List FolderEntry) (s : ManagerState),
      (∀ f ∈ l, skipName f.fname = false →
        ∀ c hc hv, f.content = FolderContent.withConfig c hc hv →
          validatePluginConfig c = true → mapHas s.plugins c.key = true) →
      (fsWalk s l).plugins = s.plugins ∧ (fsWalk s l).db = s.db := by
  intro l
  induction l with
  | nil => intro s _; exact ⟨rfl, rfl⟩
  | cons f rest ih =>
    intro s h
    have htail : ∀ g ∈ rest, skipName g.fname = false →
        ∀ c hc hv, g.content = FolderContent.withConfig c hc hv →
          validatePluginConfig c = true → mapHas s.plugins c.key = true :=
      fun g hg => h g (List.mem_cons_of_mem f hg)
    by_cases hskip : skipName f.fname
    · obtain ⟨fn, fc⟩ := f
      simp only [fsWalk, hskip, if_pos]
      exact ih _ htail
    · obtain ⟨fn, fc⟩ := f
      cases fc with
      | statError =>
        simp [fsWalk, hskip]
        exact ⟨rfl, rfl⟩
      | notDir =>
        simp [fsWalk, hskip]
        exact ih _ htail
      | noConfig =>
        simp [fsWalk, hskip]
        exact ih _ htail
      | loadFailure =>
        simp [fsWalk, hskip]
        exact ih _ htail
      | withConfig c hcon hv =>
        simp [fsWalk, hskip]
        have hhas := h _ (List.mem_cons_self _ _) (by simpa using hskip) c hcon hv rfl
        by_cases hval : validatePluginConfig c = true
        · have hh := hhas hval
          have : loadPluginFromFolder s ⟨fn, FolderContent.withConfig c hcon hv⟩ =
              addLog s LogLevel.debug ("Skipping " ++ c.name.getD ("") ++ ": Already loaded") := by
            simp [loadPluginFromFolder, hval, hh]
          rw [this]
          exact ih _ htail
        · have hval' : validatePluginConfig c = false := by simpa using hval
          have : loadPluginFromFolder s ⟨fn, FolderContent.withConfig c hcon hv⟩ =
              addLog s LogLevel.warn ("Skipping " ++ fn ++ ": Invalid plugin configuration") := by
            simp [loadPluginFromFolder, hval']
          rw [this]
          exact ih _ htail

/-- Under `steadyState`, one `loadAllPlugins` pass computes its registry
from the persisted store alone and does not modify the store. -/
theorem loadAll_steady (s : ManagerState) (folders : List FolderEntry)
    (h : steadyState s.db folders) :
    (loadAllPlugins s folders).plugins = dbPassPlugins s.db ∧
    (loadAllPlugins s folders).db = s.db := by
  have hplug : (loadAllPlugins s folders).plugins =
      (fsWalk (loadFromDatabase
        { s with plugins := [], cache := [],
                 log := s.log ++ [(LogLevel.info, "Loading plugins...")] }) folders).plugins :=
    rfl
  have hdb : (loadAllPlugins s folders).db =
      (fsWalk (loadFromDatabase
        { s with plugins := [], cache := [],
                 log := s.log ++ [(LogLevel.info, "Loading plugins...")] }) folders).db :=
    rfl
  have hs1plug : (loadFromDatabase
      { s with plugins := [], cache := [],
               log := s.log ++ [(LogLevel.info, "Loading plugins...")] }).plugins =
      dbPassPlugins s.db := by
    unfold loadFromDatabase
    rw [dbFold_plugins]
    rfl
  have hs1db : (loadFromDatabase
      { s with plugins := [], cache := [],
               log := s.log ++ [(LogLevel.info, "Loading plugins...")] }).db = s.db := by
    unfold loadFromDatabase
    rw [dbFold_db]
  have hguard : ∀ f ∈ folders, skipName f.fname = false →
      ∀ c hc hv, f.content = FolderContent.withConfig c hc hv →
        validatePluginConfig c = true →
        mapHas (loadFromDatabase
          { s with plugins := [], cache := [],
                   log := s.log ++ [(LogLevel.info, "Loading plugins...")] }).plugins
          c.key = true := by
    intro f hf hskip c hc hv heq hval
    obtain ⟨r, hrmem, hract, hrname, hrver⟩ := h f hf hskip c hc hv heq hval
    have hrkey : DbRecord.key r = c.key := by
      unfold DbRecord.key Config.key
      rw [hrname, hrver]
    have hrL : r ∈ dbFindAllActive s.db := by
      unfold dbFindAllActive
      rw [sortRecords_mem]
      exact List.mem_filter.mpr ⟨hrmem, by simp [hract]⟩
    rw [hs1plug]
    unfold dbPassPlugins
    rw [← hrkey]
    exact dbInsertFold_has_self r _ _ hrL
  have hw := fsWalk_frozen folders _ hguard
  constructor
  · rw [hplug, hw.1, hs1plug]
  · rw [hdb, hw.2, hs1db]

/-- C4 (amended): `loadAllPlugins` is idempotent — same registry keys and
same field values after each of two successive calls — provided every
valid filesystem candidate is already persisted as an active record with
the same name and version (the steady state reached when no new
filesystem plugin appears).  In general the first call persists
filesystem-discovered plugins and the second call builds their registry
entries from the persisted records instead of the raw descriptors, which
is what the counterexample exhibits. -/
theorem c4_idempotent_when_steady (s : ManagerState) (folders : List FolderEntry)
    (h : steadyState s.db folders) :
    (loadAllPlugins (loadAllPlugins s folders) folders).plugins =
      (loadAllPlugins s folders).plugins := by
  have h1 := loadAll_steady s folders h
  have h2 : steadyState (loadAllPlugins s folders).db folders := by
    rw [h1.2]
    exact h
  have h3 := loadAll_steady _ folders h2
  rw [h3.1, h1.1, h1.2]

/-- C4 witness: with `Gamma@1.0.0` both persisted (active) and on disk,
the registries produced by the second and the first call coincide. -/
theorem c4_idempotent_when_steady_witness :
    steadyState ({ emptyState with db := [recGamma] } : ManagerState).db [folderGamma] ∧
    (loadAllPlugins (loadAllPlugins { emptyState with db := [recGamma] } [folderGamma])
        [folderGamma]).plugins =
      (loadAllPlugins { emptyState with db := [recGamma] } [folderGamma]).plugins := by
  have hsteady :
      steadyState ({ emptyState with db := [recGamma] } : ManagerState).db [folderGamma] := by
    intro f hf hskip c hc hv heq hval
    simp only [List.mem_singleton] at hf
    subst hf
    simp only [folderGamma] at heq
    injection heq with h1 h2 h3
    subst h1
    exact ⟨recGamma, by simp, by decide, by decide, by decide⟩
  exact ⟨hsteady, c4_idempotent_when_steady _ _ hsteady⟩

end NexusCore
